import Mathlib

/-
  Verification development for the Nutri-Score calculation engine
  (src/backend/nutri_score.py, class NutriScoreCalculator).

  Shallow embedding conventions:
  * Python strings are modelled as lists of characters (abbreviation Str);
    the string operations used by the source (membership of a character,
    split on a character, whitespace split, strip, str.split("to")) are
    re-implemented as structural recursions so that concrete evaluations
    reduce in the kernel.
  * Python float values are modelled as rationals; float parsing of the
    digit-and-dot strings produced by the source's filtering step is
    modelled exactly (at most one dot, at least one digit, otherwise the
    Python float() call raises and the source catches the exception).
  * Python dicts are modelled as association lists with first-match lookup
    (dict keys are unique, so first-match lookup agrees with dict lookup).
  * A raised-and-not-caught exception is modelled as Option.none.
-/

namespace NutriScore

/-- Python strings, modelled as lists of characters. -/
abbrev Str := List Char

/-- Membership test of a character in a string, modelling the Python
test c in s used on threshold expressions. -/
def chContains (s : Str) (c : Char) : Bool :=
  match s with
  | [] => false
  | d :: rest => if d = c then true else chContains rest c

/-- Split a string on every occurrence of a separator character,
modelling Python str.split(sep) for a one-character separator. -/
def splitCh (sep : Char) : Str → List Str
  | [] => [[]]
  | c :: rest =>
    if c = sep then [] :: splitCh sep rest
    else
      match splitCh sep rest with
      | [] => [[c]]
      | p :: ps => (c :: p) :: ps

/-- Split a string on every occurrence of the two-character separator
"to", modelling Python str.split with that separator; used by the
grade-band scan of calculate_score. -/
def splitTo : Str → List Str
  | [] => [[]]
  | 't' :: 'o' :: rest => [] :: splitTo rest
  | c :: rest =>
    match splitTo rest with
    | [] => [[c]]
    | p :: ps => (c :: p) :: ps

/-- Split on whitespace runs discarding empty pieces, modelling the
Python no-argument str.split(). -/
def pySplitWs (s : Str) : List Str :=
  (splitCh ' ' s).filter (fun t => t ≠ [])

/-- Python str.strip: drop leading and trailing spaces. -/
def pyStrip (s : Str) : Str :=
  ((s.dropWhile (fun c => c = ' ')).reverse.dropWhile (fun c => c = ' ')).reverse

/-- The filtering step of _parse_threshold: keep only digits and dots,
modelling the comprehension that removes unit suffixes and percent signs. -/
def keepDigitsDots (s : Str) : Str :=
  s.filter (fun c => c.isDigit || c = '.')

/-- Numeric value of a digit string, most significant digit first. -/
def natOfDigits (s : Str) : ℕ :=
  s.foldl (fun n c => 10 * n + (c.toNat - 48)) 0

/-- Python float() restricted to the strings the source feeds it: an
optional sign followed by digits and at most one dot; float() raises
(modelled as none) when there is no digit, more than one dot, or any
other character. -/
def pyFloat (s0 : Str) : Option ℚ :=
  let signed : Bool := match s0 with | c :: _ => c = '-' | [] => false
  let s : Str := match s0 with
    | c :: rest => if c = '-' ∨ c = '+' then rest else s0
    | [] => s0
  let val : Option ℚ :=
    match splitCh '.' s with
    | [a] =>
      if a ≠ [] ∧ a.all Char.isDigit then some ((natOfDigits a : ℚ)) else none
    | [a, b] =>
      if (a ≠ [] ∨ b ≠ []) ∧ a.all Char.isDigit ∧ b.all Char.isDigit then
        some (mkRat (natOfDigits a * 10 ^ b.length + natOfDigits b) (10 ^ b.length))
      else none
    | _ => none
  match val with
  | none => none
  | some v => some (if signed then -v else v)

/-- First whitespace-separated token after the first occurrence of the
separator character: threshold_str.split(op)[1].split()[0], with none
when the Python expression raises IndexError. -/
def tokenAfter (s : Str) (op : Char) : Option Str :=
  match (splitCh op s).get? 1 with
  | none => none
  | some part => (pySplitWs part).head?

/-- Parse of the token following a comparison operator in a threshold
expression: strip to digits and dots, then float(). -/
def opValue (s : Str) (op : Char) : Option ℚ :=
  match tokenAfter s op with
  | none => none
  | some tok => pyFloat (keepDigitsDots tok)

/-- All-or-nothing float() over a list of already-filtered strings,
modelling the loop in the range branch of _parse_threshold (an exception
on any part aborts the whole parse). -/
def floatList : List Str → Option (List ℚ)
  | [] => some []
  | s :: rest =>
    match pyFloat s, floatList rest with
    | some v, some vs => some (v :: vs)
    | _, _ => none

/-- NutriScoreCalculator._parse_threshold: a single bound for the two
operator forms, a closed range for the dash form, none when nothing is
recognized or float() raises. -/
def parseThreshold (s : Str) : Option (ℚ ⊕ (ℚ × ℚ)) :=
  if chContains s '≤' = true then (opValue s '≤').map Sum.inl
  else if chContains s '>' = true then (opValue s '>').map Sum.inl
  else if chContains s '-' = true then
    match floatList ((splitCh '-' s).map keepDigitsDots) with
    | none => none
    | some [] => none
    | some [a] => some (Sum.inr (a, a))
    | some (a :: b :: rest) => some (Sum.inr (a, (b :: rest).getLastD b))
  else none

/-- First-match lookup in an association list, modelling Python dict
lookup (dict keys are unique, so first match is the only match). -/
def lookupKey {α : Type} (l : List (Str × α)) (k : Str) : Option α :=
  match l with
  | [] => none
  | (k', v) :: rest => if k' = k then some v else lookupKey rest k

/-- One component entry of the criteria document. The fields mirror the
dict accesses of the source: thresholds and max_points are read with
component.get(..., default), so an absent key and the default value are
indistinguishable; conversion_note records whether the key
conversion_note is present in the component dict. -/
structure Component where
  thresholds : List (Str × Str)
  max_points : Int
  conversion_note : Bool
deriving DecidableEq

/-- The two band dicts of final_grade_assignment, each read with
.get(..., {}), hence optional. -/
structure GradeAssignment where
  beverages : Option (List (Str × Str))
  solid_foods : Option (List (Str × Str))
deriving DecidableEq

/-- The criteria dict held in self.criteria. Every top-level section is
read with .get(..., {}), hence optional: a missing section and an empty
one are indistinguishable to the calculator. -/
structure Criteria where
  negative_components : Option (List (Str × Component))
  positive_components : Option (List (Str × Component))
  final_grade_assignment : Option GradeAssignment
deriving DecidableEq

/-- The parsed JSON document handed to _load_criteria. -/
structure RuleDoc where
  nutri_score_criteria_2024 : Option Criteria
deriving DecidableEq

/-- NutriScoreCalculator._load_criteria on an already-parsed document:
data.get with an empty default, never a failure. -/
def loadCriteria (doc : RuleDoc) : Criteria :=
  doc.nutri_score_criteria_2024.getD ⟨none, none, none⟩

/-- Modelled from the spec: RuleTable.load as section 4.1 describes it,
failing with ConfigError when one of the required top-level sections
negative_components, positive_components, final_grade_assignment is
missing. The source (_load_criteria) has no such check; this definition
exists only to be compared with loadCriteria. -/
def loadRuleTableSpec (doc : RuleDoc) : Except String Criteria :=
  match doc.nutri_score_criteria_2024 with
  | none => Except.error ("ConfigError")
  | some c =>
    match c.negative_components, c.positive_components, c.final_grade_assignment with
    | some _, some _, some _ => Except.ok c
    | _, _, _ => Except.error ("ConfigError")

/-- The component dict selected by the is_negative flag, with the
.get(..., {}) default of line 90 of the source. -/
def componentsFor (criteria : Criteria) (is_negative : Bool) : List (Str × Component) :=
  if is_negative = true then criteria.negative_components.getD []
  else criteria.positive_components.getD []

/-- One iteration of the threshold loop of _get_points_for_component:
whether the threshold stored under points_points (if any) is satisfied
by the value. Unparseable or absent levels are skipped (false). -/
def levelHit (thresholds : List (Str × Str)) (value : ℚ) (points : ℕ) : Bool :=
  match lookupKey thresholds ((Nat.repr points).toList ++ ("_points".toList)) with
  | none => false
  | some s =>
    match parseThreshold s with
    | none => false
    | some (Sum.inr (lo, hi)) => if lo ≤ value ∧ value ≤ hi then true else false
    | some (Sum.inl p) =>
      if chContains s '≤' = true ∧ value ≤ p then true
      else if chContains s '>' = true ∧ p < value then true
      else false

/-- The kcal-to-kJ factor 4.184 of line 104 of the source. -/
def kcalToKj : ℚ := mkRat 523 125

/-- NutriScoreCalculator._get_points_for_component. An unknown component
yields 0 (the source logs a warning and returns 0); energy_calories with
a conversion_note and a value below 1000 is rescaled by 4.184; the
threshold loop runs over point levels 0..max_points and returns the
first satisfied level, falling back to max_points. -/
def getPointsForComponent (criteria : Criteria) (component_name : Str) (value0 : ℚ)
    (is_negative : Bool) : Int :=
  match lookupKey (componentsFor criteria is_negative) component_name with
  | none => 0
  | some c =>
    let value : ℚ :=
      if component_name = ("energy_calories".toList) ∧ c.conversion_note = true ∧ value0 < 1000
      then value0 * kcalToKj else value0
    let levels : List ℕ :=
      if 0 ≤ c.max_points then List.range (c.max_points.toNat + 1) else []
    match levels.find? (levelHit c.thresholds value) with
    | some k => (k : Int)
    | none => c.max_points

/-- Modelled from the spec: the same point lookup but, as sections 4.2
and 6 of the spec describe it, comparing the caller-supplied value
directly against the parsed thresholds with no rescaling. Exists only to
be compared with getPointsForComponent. -/
def getPointsNoRescale (criteria : Criteria) (component_name : Str) (value : ℚ)
    (is_negative : Bool) : Int :=
  match lookupKey (componentsFor criteria is_negative) component_name with
  | none => 0
  | some c =>
    let levels : List ℕ :=
      if 0 ≤ c.max_points then List.range (c.max_points.toNat + 1) else []
    match levels.find? (levelHit c.thresholds value) with
    | some k => (k : Int)
    | none => c.max_points

/-- One row of the calculation log. value is the raw nutrient value;
none in value encodes the literal string Present used by the sweetener
entry; note is the optional remark attached to special rules. -/
structure LogEntry where
  component : Str
  value : Option ℚ
  points : Int
  is_negative : Bool
  note : Option Str
deriving DecidableEq

/-- The (component, nutrition-data key) pairs of the negative loop of
calculate_score (lines 164-169 of the source). -/
def negativePairs : List (Str × Str) :=
  [(("energy_calories".toList), ("energy_kcal".toList)),
   (("sugars".toList), ("sugars_g".toList)),
   (("saturated_fatty_acids".toList), ("saturated_fat_g".toList)),
   (("salt_sodium".toList), ("salt_g".toList))]

/-- The (component, key) pairs of the positive loop (lines 194-197). -/
def positivePairs : List (Str × Str) :=
  [(("fiber".toList), ("fiber_g".toList)),
   (("protein".toList), ("protein_g".toList))]

/-- The annotated log entry appended for the sweetener penalty. -/
def sweetenerEntry : LogEntry :=
  ⟨("non_nutritive_sweeteners".toList), none, 2, true,
   some ("Additional penalty for artificial sweeteners (2024 update)".toList)⟩

/-- The running state of calculate_score: negative_points,
positive_points and the calculation log. -/
structure Acc where
  neg : Int
  pos : Int
  log : List LogEntry
deriving DecidableEq

/-- One iteration of the negative-components loop of calculate_score:
skip the component when its key is absent from the nutrition data,
otherwise add its points to negative_points and append a log row. -/
def negStep (criteria : Criteria) (data : List (Str × ℚ)) (acc : Acc) (pair : Str × Str) : Acc :=
  match lookupKey data pair.2 with
  | none => acc
  | some v =>
    let points := getPointsForComponent criteria pair.1 v true
    ⟨acc.neg + points, acc.pos, acc.log ++ [⟨pair.1, some v, points, true, none⟩]⟩

/-- One iteration of the positive-components loop. For protein with
is_cheese the source logs a hard-coded 7-point entry with the
special-rule note but does not touch positive_points (the missing
accumulation is in the source); otherwise points are resolved through
the threshold table and accumulated. -/
def posStep (criteria : Criteria) (data : List (Str × ℚ)) (is_cheese : Bool)
    (acc : Acc) (pair : Str × Str) : Acc :=
  match lookupKey data pair.2 with
  | none => acc
  | some v =>
    if pair.1 = ("protein".toList) ∧ is_cheese = true then
      ⟨acc.neg, acc.pos,
       acc.log ++ [⟨pair.1, some v, 7, false,
         some ("Special rule: Cheese products receive full protein points".toList)⟩]⟩
    else
      let points := getPointsForComponent criteria pair.1 v false
      ⟨acc.neg, acc.pos + points, acc.log ++ [⟨pair.1, some v, points, false, none⟩]⟩

/-- Lines 158-230 of calculate_score: the negative loop, the sweetener
penalty, the positive loop and the fruits/vegetables block, producing
negative_points, positive_points and the calculation log. -/
def calcCore (criteria : Criteria) (data : List (Str × ℚ))
    (is_cheese contains_sweeteners : Bool) : Acc :=
  let a1 := List.foldl (negStep criteria data) ⟨0, 0, []⟩ negativePairs
  let a2 :=
    if contains_sweeteners = true then
      ⟨a1.neg + 2, a1.pos, a1.log ++ [sweetenerEntry]⟩
    else a1
  let a3 := List.foldl (posStep criteria data is_cheese) a2 positivePairs
  match lookupKey data ("fruits_veg_nuts_percent".toList) with
  | none => a3
  | some v =>
    let points := getPointsForComponent criteria ("fruits_vegetables_legumes_nuts".toList) v false
    ⟨a3.neg, a3.pos + points,
     a3.log ++ [⟨("fruits_vegetables_legumes_nuts".toList), some v, points, false, none⟩]⟩

/-- final_score = negative_points - positive_points (line 233). -/
def rawScoreOf (criteria : Criteria) (data : List (Str × ℚ))
    (is_cheese contains_sweeteners : Bool) : Int :=
  (calcCore criteria data is_cheese contains_sweeteners).neg -
    (calcCore criteria data is_cheese contains_sweeteners).pos

/-- The parse of a grade-band bound: the first whitespace token after
the operator fed directly to float() with no digit filtering (lines
243, 248 of the source); none when float() raises. -/
def bandValue (s : Str) (op : Char) : Option ℚ :=
  match tokenAfter s op with
  | none => none
  | some tok => pyFloat tok

/-- The grade-band scan of calculate_score (lines 239-258): first band
whose condition holds wins; bands with no recognized operator are
skipped; a float() failure raises out of calculate_score (none); grade
E when no band matches. -/
def gradeLoop (score : Int) : List (Str × Str) → Option Str
  | [] => some ("E".toList)
  | (g, ts) :: rest =>
    if chContains ts '≤' = true then
      match bandValue ts '≤' with
      | none => none
      | some v => if (score : ℚ) ≤ v then some g else gradeLoop score rest
    else if chContains ts '≥' = true then
      match bandValue ts '≥' with
      | none => none
      | some v => if v ≤ (score : ℚ) then some g else gradeLoop score rest
    else if (splitTo ts).length ≥ 2 then
      match (splitTo ts).get? 0, (splitTo ts).get? 1 with
      | some p0, some p1 =>
        match pyFloat (pyStrip p0) with
        | none => none
        | some lo =>
          match (pySplitWs p1).head? with
          | none => none
          | some tok =>
            match pyFloat (pyStrip tok) with
            | none => none
            | some hi =>
              if lo ≤ (score : ℚ) ∧ (score : ℚ) ≤ hi then some g else gradeLoop score rest
      | _, _ => none
    else gradeLoop score rest

/-- Grade assignment (lines 236-258): pick the band dict by is_beverage
with .get(..., {}) defaults, then scan. -/
def assignGrade (criteria : Criteria) (is_beverage : Bool) (score : Int) : Option Str :=
  let ga := criteria.final_grade_assignment.getD ⟨none, none⟩
  let bands := if is_beverage = true then ga.beverages.getD [] else ga.solid_foods.getD []
  gradeLoop score bands

/-- The static grade-to-score map of line 262 with the .get default 0. -/
def normalizedScore (grade : Str) : Int :=
  if grade = ("A".toList) then 90
  else if grade = ("B".toList) then 70
  else if grade = ("C".toList) then 50
  else if grade = ("D".toList) then 30
  else if grade = ("E".toList) then 10
  else 0

/-- The Result dict of calculate_score. The explanation text and the
fixed citation list are pure functions of the fields below and of the
flags and are omitted; no claim concerns their content. -/
structure Result where
  raw_score : Int
  normalized_score : Int
  grade : Str
  calculation_log : List LogEntry
  is_beverage : Bool
  is_cheese : Bool
  contains_sweeteners : Bool
deriving DecidableEq

/-- Lexicographic order on characters, for the sorted() of _cache_key. -/
def charLt (a b : Char) : Bool := a.toNat < b.toNat

/-- Lexicographic order on strings, modelling Python string comparison
in sorted() (keys of a dict are unique, so values are never compared). -/
def strLt : Str → Str → Bool
  | [], [] => false
  | [], _ :: _ => true
  | _ :: _, [] => false
  | a :: as', b :: bs' => if a = b then strLt as' bs' else charLt a b

/-- Insertion into a key-sorted association list. -/
def insertSorted (p : Str × ℚ) : List (Str × ℚ) → List (Str × ℚ)
  | [] => [p]
  | q :: rest => if strLt p.1 q.1 = true then p :: q :: rest else q :: insertSorted p rest

/-- The type of cache keys. -/
abbrev CKey := (List (Str × ℚ)) × Bool × Bool × Bool

instance : DecidableEq CKey := inferInstance

/-- NutriScoreCalculator._cache_key: the sorted item list of the
nutrition data together with the three flags. -/
def cacheKey (data : List (Str × ℚ)) (is_beverage is_cheese contains_sweeteners : Bool) :
    CKey :=
  (data.foldr insertSorted [], is_beverage, is_cheese, contains_sweeteners)

/-- The cache dict in insertion order: oldest entry first. -/
abbrev CacheState := List (CKey × Result)

instance : DecidableEq CacheState := inferInstance

instance : DecidableEq (Result × CacheState × Bool) := inferInstance

/-- First-match lookup in the cache. -/
def lookupCache (st : CacheState) (k : CKey) : Option Result :=
  match st with
  | [] => none
  | (k', v) :: rest => if k' = k then some v else lookupCache rest k

/-- NutriScoreCalculator.calculate_score: cache probe, scoring, grade
assignment, result construction, cache insertion and FIFO eviction
beyond 128 entries. Returns the result, the new cache state and whether
the cache served the call (the branch taken at line 154); none models
the uncaught exception from a malformed grade band, which leaves the
cache unchanged. -/
def calculateScore (criteria : Criteria) (st : CacheState) (data : List (Str × ℚ))
    (is_beverage is_cheese contains_sweeteners : Bool) :
    Option (Result × CacheState × Bool) :=
  let key := cacheKey data is_beverage is_cheese contains_sweeteners
  match lookupCache st key with
  | some r => some (r, st, true)
  | none =>
    let a := calcCore criteria data is_cheese contains_sweeteners
    let final_score := a.neg - a.pos
    match assignGrade criteria is_beverage final_score with
    | none => none
    | some grade =>
      let result : Result :=
        ⟨final_score, normalizedScore grade, grade, a.log,
         is_beverage, is_cheese, contains_sweeteners⟩
      let cache1 := st ++ [(key, result)]
      let cache2 := if 128 < cache1.length then cache1.drop 1 else cache1
      some (result, cache2, false)

/-- Points contributed by one negative component given the optional
value found under its key: 0 when the key is absent. -/
def optNegPts (criteria : Criteria) (comp : Str) (v? : Option ℚ) : Int :=
  match v? with
  | none => 0
  | some v => getPointsForComponent criteria comp v true

/-- Log rows contributed by one negative component. -/
def optNegLog (criteria : Criteria) (comp : Str) (v? : Option ℚ) : List LogEntry :=
  match v? with
  | none => []
  | some v => [⟨comp, some v, getPointsForComponent criteria comp v true, true, none⟩]

/-- Points accumulated into positive_points by one positive component;
0 when the key is absent and also in the cheese-protein branch, whose
points are logged but never accumulated by the source. -/
def optPosPts (criteria : Criteria) (is_cheese : Bool) (comp : Str) (v? : Option ℚ) : Int :=
  match v? with
  | none => 0
  | some v =>
    if comp = ("protein".toList) ∧ is_cheese = true then 0
    else getPointsForComponent criteria comp v false

/-- Log rows contributed by one positive component. -/
def optPosLog (criteria : Criteria) (is_cheese : Bool) (comp : Str) (v? : Option ℚ) : List LogEntry :=
  match v? with
  | none => []
  | some v =>
    if comp = ("protein".toList) ∧ is_cheese = true then
      [⟨comp, some v, 7, false,
        some ("Special rule: Cheese products receive full protein points".toList)⟩]
    else [⟨comp, some v, getPointsForComponent criteria comp v false, false, none⟩]

theorem negStep_eq (criteria : Criteria) (data : List (Str × ℚ)) (acc : Acc) (comp key : Str) :
    negStep criteria data acc (comp, key) =
      ⟨acc.neg + optNegPts criteria comp (lookupKey data key), acc.pos,
       acc.log ++ optNegLog criteria comp (lookupKey data key)⟩ := by
  cases h : lookupKey data key <;> simp [negStep, optNegPts, optNegLog, h]

theorem posStep_eq (criteria : Criteria) (data : List (Str × ℚ)) (is_cheese : Bool)
    (acc : Acc) (comp key : Str) :
    posStep criteria data is_cheese acc (comp, key) =
      ⟨acc.neg, acc.pos + optPosPts criteria is_cheese comp (lookupKey data key),
       acc.log ++ optPosLog criteria is_cheese comp (lookupKey data key)⟩ := by
  cases h : lookupKey data key with
  | none => simp [posStep, optPosPts, optPosLog, h]
  | some v =>
    by_cases hch : comp = ("protein".toList) ∧ is_cheese = true
    · simp only [posStep, h, optPosPts, optPosLog, if_pos hch, add_zero]
    · simp only [posStep, h, optPosPts, optPosLog, if_neg hch]

/-- Decomposition of negative_points: one summand per fixed negative
component, plus the sweetener penalty. -/
theorem calcCore_neg (criteria : Criteria) (data : List (Str × ℚ)) (ch sw : Bool) :
    (calcCore criteria data ch sw).neg =
      optNegPts criteria ("energy_calories".toList) (lookupKey data ("energy_kcal".toList)) +
      optNegPts criteria ("sugars".toList) (lookupKey data ("sugars_g".toList)) +
      optNegPts criteria ("saturated_fatty_acids".toList) (lookupKey data ("saturated_fat_g".toList)) +
      optNegPts criteria ("salt_sodium".toList) (lookupKey data ("salt_g".toList)) +
      (if sw = true then 2 else 0) := by
  cases hf : lookupKey data ("fruits_veg_nuts_percent".toList) <;>
    simp only [calcCore, negativePairs, positivePairs, List.foldl_cons, List.foldl_nil,
      negStep_eq, posStep_eq, hf] <;>
    cases sw <;> simp

/-- Decomposition of positive_points: one summand per positive
component (the cheese-protein summand being 0). -/
theorem calcCore_pos (criteria : Criteria) (data : List (Str × ℚ)) (ch sw : Bool) :
    (calcCore criteria data ch sw).pos =
      optPosPts criteria ch ("fiber".toList) (lookupKey data ("fiber_g".toList)) +
      optPosPts criteria ch ("protein".toList) (lookupKey data ("protein_g".toList)) +
      optPosPts criteria ch ("fruits_vegetables_legumes_nuts".toList)
        (lookupKey data ("fruits_veg_nuts_percent".toList)) := by
  cases hf : lookupKey data ("fruits_veg_nuts_percent".toList) <;>
    simp only [calcCore, negativePairs, positivePairs, List.foldl_cons, List.foldl_nil,
      negStep_eq, posStep_eq, hf] <;>
    cases sw <;> simp [optPosPts]

/-- Decomposition of the calculation log: the four negative rows, then
the optional sweetener row, then the three positive rows, in source
order. -/
theorem calcCore_log (criteria : Criteria) (data : List (Str × ℚ)) (ch sw : Bool) :
    (calcCore criteria data ch sw).log =
      optNegLog criteria ("energy_calories".toList) (lookupKey data ("energy_kcal".toList)) ++
      (optNegLog criteria ("sugars".toList) (lookupKey data ("sugars_g".toList)) ++
      (optNegLog criteria ("saturated_fatty_acids".toList) (lookupKey data ("saturated_fat_g".toList)) ++
      (optNegLog criteria ("salt_sodium".toList) (lookupKey data ("salt_g".toList)) ++
      ((if sw = true then [sweetenerEntry] else []) ++
      (optPosLog criteria ch ("fiber".toList) (lookupKey data ("fiber_g".toList)) ++
      (optPosLog criteria ch ("protein".toList) (lookupKey data ("protein_g".toList)) ++
      optPosLog criteria ch ("fruits_vegetables_legumes_nuts".toList)
        (lookupKey data ("fruits_veg_nuts_percent".toList)))))))) := by
  cases hf : lookupKey data ("fruits_veg_nuts_percent".toList) <;>
    simp only [calcCore, negativePairs, positivePairs, List.foldl_cons, List.foldl_nil,
      negStep_eq, posStep_eq, hf] <;>
    cases sw <;> simp [optPosLog]

/-- A criteria table with a protein rule of max_points 7, as the 2024
table has; used to exhibit the cheese-protein accumulation bug. -/
def cheeseCriteria : Criteria :=
  ⟨none,
   some [(("protein".toList),
          ⟨[(("0_points".toList), ("≤ 2.4 g".toList))], 7, false⟩)],
   none⟩

/-- C1: at protein_g = 0 and at protein_g = 100 with is_cheese = true,
the source logs a 7-point protein contribution carrying the special-rule
note, yet positive_points stays 0 and the raw score stays 0: the logged
cheese points are never accumulated, so raw_score does not reflect them
as the claim (and the spec) require. -/
theorem c1_cheese_points_logged_not_accumulated :
    ((calcCore cheeseCriteria [(("protein_g".toList), 0)] true false).log =
      [⟨("protein".toList), some 0, 7, false,
        some ("Special rule: Cheese products receive full protein points".toList)⟩]
    ∧ (calcCore cheeseCriteria [(("protein_g".toList), 0)] true false).pos = 0
    ∧ rawScoreOf cheeseCriteria [(("protein_g".toList), 0)] true false = 0)
    ∧ ((calcCore cheeseCriteria [(("protein_g".toList), 100)] true false).log =
      [⟨("protein".toList), some 100, 7, false,
        some ("Special rule: Cheese products receive full protein points".toList)⟩]
    ∧ rawScoreOf cheeseCriteria [(("protein_g".toList), 100)] true false = 0) := by
  decide

/-- C4 counterexample: with an empty rule table the point lookup for the
unknown component sugars silently returns 0, and evaluation appends a
zero-point ComponentContribution for it — the lookup neither fails nor
refuses to produce a zero-point contribution. -/
theorem c4_unknown_component_counterexample :
    getPointsForComponent ⟨none, none, none⟩ ("sugars".toList) 5 true = 0
    ∧ (calcCore ⟨none, none, none⟩ [(("sugars_g".toList), 5)] false false).log =
        [⟨("sugars".toList), some 5, 0, true, none⟩] := by
  decide

/-- C4 amended: when a component has no entry in the loaded rule table,
_get_points_for_component logs a warning and returns 0 points (there is
no UnknownComponentError anywhere in the code base); the component still
receives a zero-point row in the calculation log. -/
theorem c4_amended_unknown_component_yields_zero (criteria : Criteria) (name : Str)
    (v : ℚ) (b : Bool) (h : lookupKey (componentsFor criteria b) name = none) :
    getPointsForComponent criteria name v b = 0 := by
  simp only [getPointsForComponent, h]

/-- Witness for the C4 amended theorem at the empty table. -/
theorem c4_amended_unknown_component_yields_zero_witness :
    lookupKey (componentsFor ⟨none, none, none⟩ true) ("sugars".toList) = none
    ∧ getPointsForComponent ⟨none, none, none⟩ ("sugars".toList) 5 true = 0 :=
  ⟨by decide,
   c4_amended_unknown_component_yields_zero ⟨none, none, none⟩ ("sugars".toList) 5 true
     (by decide)⟩

/-- A table whose only sugars threshold has no numeric token at all. -/
def unparseableCriteria : Criteria :=
  ⟨some [(("sugars".toList),
          ⟨[(("0_points".toList), ("no numeric token".toList))], 5, false⟩)],
   none, none⟩

/-- C5 counterexample: the threshold expression parses to None (no
error object is raised), and far from being left unscored the component
is awarded the full max_points of 5, which flows into negative_total —
the opposite of the claimed skip-and-surface behaviour. -/
theorem c5_unparseable_threshold_counterexample :
    parseThreshold ("no numeric token".toList) = none
    ∧ getPointsForComponent unparseableCriteria ("sugars".toList) 1 true = 5
    ∧ (calcCore unparseableCriteria [(("sugars_g".toList), 1)] false false).neg = 5
    ∧ rawScoreOf unparseableCriteria [(("sugars_g".toList), 1)] false false = 5 := by
  decide

/-- Whether the threshold stored for one point level is absent or fails
to parse (so that the level scan skips it). -/
def levelUnparseable (thresholds : List (Str × Str)) (k : ℕ) : Bool :=
  match lookupKey thresholds ((Nat.repr k).toList ++ ("_points".toList)) with
  | none => true
  | some s => (parseThreshold s).isNone

/-- C5 amended: an unparseable threshold level is silently skipped, and
when every stored level of a component fails to parse the component is
scored at max_points (which accumulates into the totals); no parse
failure is surfaced to the caller. -/
theorem c5_amended_unparseable_levels_fall_back_to_max (criteria : Criteria) (name : Str)
    (v : ℚ) (b : Bool) (c : Component)
    (hc : lookupKey (componentsFor criteria b) name = some c)
    (hall : ∀ k : ℕ, k ≤ c.max_points.toNat → levelUnparseable c.thresholds k = true) :
    getPointsForComponent criteria name v b = c.max_points := by
  simp only [getPointsForComponent, hc]
  have hfind : ∀ (value : ℚ),
      (List.range (c.max_points.toNat + 1)).find? (levelHit c.thresholds value) = none := by
    intro value
    refine List.find?_eq_none.mpr (fun k hk => ?_)
    have hk' : k ≤ c.max_points.toNat := Nat.lt_succ_iff.mp (List.mem_range.mp hk)
    have hu := hall k hk'
    unfold levelUnparseable at hu
    unfold levelHit
    cases hlk : lookupKey c.thresholds ((Nat.repr k).toList ++ ("_points".toList)) with
    | none => simp
    | some s =>
      rw [hlk] at hu
      simp only [Option.isNone_iff_eq_none] at hu
      simp [hu]
  by_cases hmax : 0 ≤ c.max_points <;> simp [hmax, hfind]

/-- Witness for the C5 amended theorem at the concrete table. -/
theorem c5_amended_unparseable_levels_fall_back_to_max_witness :
    lookupKey (componentsFor unparseableCriteria true) ("sugars".toList) =
      some ⟨[(("0_points".toList), ("no numeric token".toList))], 5, false⟩
    ∧ getPointsForComponent unparseableCriteria ("sugars".toList) 1 true =
        (⟨[(("0_points".toList), ("no numeric token".toList))], 5, false⟩ : Component).max_points :=
  ⟨by decide,
   c5_amended_unparseable_levels_fall_back_to_max unparseableCriteria ("sugars".toList) 1 true
     ⟨[(("0_points".toList), ("no numeric token".toList))], 5, false⟩ (by decide) (by decide)⟩

/-- C6 counterexample: a document whose criteria object is missing all
three required top-level sections loads without any error into the
empty table — exactly the silent downgrade the claim rules out — while
the spec-modelled loader fails with ConfigError on the same input. -/
theorem c6_missing_sections_counterexample :
    loadCriteria ⟨some ⟨none, none, none⟩⟩ = ⟨none, none, none⟩
    ∧ loadRuleTableSpec ⟨some ⟨none, none, none⟩⟩ = Except.error ("ConfigError")
    ∧ loadCriteria ⟨none⟩ = ⟨none, none, none⟩ :=
  ⟨rfl, rfl, rfl⟩

/-- C6 amended: _load_criteria is total and never signals: a document
without the criteria key (and likewise one whose sections are missing)
yields the empty table, under which every component lookup silently
scores 0. -/
theorem c6_amended_load_never_fails (doc : RuleDoc)
    (h : doc.nutri_score_criteria_2024 = none) :
    loadCriteria doc = ⟨none, none, none⟩
    ∧ ∀ (name : Str) (v : ℚ) (b : Bool),
        getPointsForComponent (loadCriteria doc) name v b = 0 := by
  have hl : loadCriteria doc = ⟨none, none, none⟩ := by
    simp [loadCriteria, h]
  refine ⟨hl, fun name v b => ?_⟩
  rw [hl]
  cases b <;> rfl

/-- Witness for the C6 amended theorem at the empty document. -/
theorem c6_amended_load_never_fails_witness :
    (⟨none⟩ : RuleDoc).nutri_score_criteria_2024 = none
    ∧ getPointsForComponent (loadCriteria ⟨none⟩) ("sugars".toList) 3 true = 0 :=
  ⟨rfl, (c6_amended_load_never_fails ⟨none⟩ rfl).2 ("sugars".toList) 3 true⟩

/-- A table whose sugars entry carries a negative max_points. -/
def negMaxCriteria : Criteria :=
  ⟨some [(("sugars".toList), ⟨[], -1, false⟩)], none, none⟩

/-- C10 counterexample: with max_points = -1 stored for a component the
lookup returns -1, a negative point count, so the result does not lie
between 0 and max_points in the claimed sense. -/
theorem c10_negative_max_counterexample :
    getPointsForComponent negMaxCriteria ("sugars".toList) 5 true = -1
    ∧ getPointsForComponent negMaxCriteria ("sugars".toList) 5 true < 0 := by
  decide

/-- Helper: any point level produced by the threshold scan is drawn
from range (max_points.toNat + 1). -/
theorem getPoints_bounds_aux (criteria : Criteria) (name : Str) (v : ℚ) (b : Bool)
    (c : Component) (hc : lookupKey (componentsFor criteria b) name = some c)
    (hmax : 0 ≤ c.max_points) :
    0 ≤ getPointsForComponent criteria name v b
    ∧ getPointsForComponent criteria name v b ≤ c.max_points := by
  simp only [getPointsForComponent, hc, if_pos hmax]
  cases hfind : (List.range (c.max_points.toNat + 1)).find?
      (levelHit c.thresholds
        (if name = ("energy_calories".toList) ∧ c.conversion_note = true ∧ v < 1000
         then v * kcalToKj else v)) with
  | none => simp [hmax]
  | some k =>
    have hk : k ∈ List.range (c.max_points.toNat + 1) := List.mem_of_find?_eq_some hfind
    have hk' : k ≤ c.max_points.toNat := Nat.lt_succ_iff.mp (List.mem_range.mp hk)
    dsimp only
    constructor
    · exact_mod_cast Int.ofNat_nonneg k
    · calc (k : Int) ≤ (c.max_points.toNat : Int) := by exact_mod_cast hk'
        _ = c.max_points := Int.toNat_of_nonneg hmax

/-- C10 amended: the lookup is total (it is a Lean function); an absent
component scores 0 and, provided the stored max_points is nonnegative
(as in any meaningful table), the result always lies between 0 and that
component's max_points inclusive. -/
theorem c10_amended_points_total_and_bounded (criteria : Criteria) (name : Str)
    (v : ℚ) (b : Bool) :
    (lookupKey (componentsFor criteria b) name = none →
      getPointsForComponent criteria name v b = 0)
    ∧ (∀ c : Component, lookupKey (componentsFor criteria b) name = some c →
        0 ≤ c.max_points →
        0 ≤ getPointsForComponent criteria name v b
        ∧ getPointsForComponent criteria name v b ≤ c.max_points) := by
  constructor
  · intro h
    simp only [getPointsForComponent, h]
  · intro c hc hmax
    exact getPoints_bounds_aux criteria name v b c hc hmax

/-- Witness for the C10 amended theorem at a concrete one-component
table with max_points 5 and an unparseable threshold. -/
theorem c10_amended_points_total_and_bounded_witness :
    lookupKey (componentsFor unparseableCriteria true) ("sugars".toList) =
      some ⟨[(("0_points".toList), ("no numeric token".toList))], 5, false⟩
    ∧ (0 : Int) ≤ 5
    ∧ 0 ≤ getPointsForComponent unparseableCriteria ("sugars".toList) 1 true
    ∧ getPointsForComponent unparseableCriteria ("sugars".toList) 1 true ≤
        (⟨[(("0_points".toList), ("no numeric token".toList))], 5, false⟩ : Component).max_points :=
  ⟨by decide, by decide,
   ((c10_amended_points_total_and_bounded unparseableCriteria ("sugars".toList) 1 true).2
     ⟨[(("0_points".toList), ("no numeric token".toList))], 5, false⟩ (by decide) (by decide)).1,
   ((c10_amended_points_total_and_bounded unparseableCriteria ("sugars".toList) 1 true).2
     ⟨[(("0_points".toList), ("no numeric token".toList))], 5, false⟩ (by decide) (by decide)).2⟩

/-- A table whose energy_calories entry carries a conversion_note, as
the 2024 criteria document does. -/
def convCriteria : Criteria :=
  ⟨some [(("energy_calories".toList),
          ⟨[(("0_points".toList), ("≤ 400 kJ".toList)),
            (("1_points".toList), ("> 400 kJ".toList))], 1, true⟩)],
   none, none⟩

/-- C3 counterexample: for energy_calories with a conversion_note and
value 125 (per-100g kcal), the engine multiplies by 4.184 before the
threshold comparison (125 x 4.184 = 523 > 400, one point), whereas the
spec-modelled direct comparison of the caller-supplied value yields
0 points (125 <= 400): the engine does rescale the input. -/
theorem c3_rescaling_counterexample :
    getPointsForComponent convCriteria ("energy_calories".toList) 125 true = 1
    ∧ getPointsNoRescale convCriteria ("energy_calories".toList) 125 true = 0 := by
  constructor
  · have hv : (125 : ℚ) * kcalToKj = 523 := by
      norm_num [kcalToKj, Rat.mkRat_eq_div]
    simp only [getPointsForComponent, convCriteria, componentsFor, lookupKey, hv]
    decide
  · decide

/-- C3 amended: the engine performs no unit conversion except for the
component energy_calories when its rule carries a conversion_note (in
which case a value below 1000 is multiplied by 4.184 before threshold
comparison); for every other component the caller-supplied value is
compared directly against the parsed thresholds. -/
theorem c3_amended_no_rescale_without_conversion_note (criteria : Criteria) (name : Str)
    (v : ℚ) (b : Bool)
    (h : name ≠ ("energy_calories".toList)
      ∨ ∀ c : Component, lookupKey (componentsFor criteria b) name = some c →
          c.conversion_note = false) :
    getPointsForComponent criteria name v b = getPointsNoRescale criteria name v b := by
  cases hc : lookupKey (componentsFor criteria b) name with
  | none => simp only [getPointsForComponent, getPointsNoRescale, hc]
  | some c =>
    have hcond : ¬(name = ("energy_calories".toList) ∧ c.conversion_note = true ∧ v < 1000) := by
      rcases h with h | h
      · exact fun hx => h hx.1
      · intro hx
        rw [h c hc] at hx
        exact Bool.false_ne_true hx.2.1
    simp only [getPointsForComponent, getPointsNoRescale, hc, if_neg hcond]

/-- Witness for the C3 amended theorem: a non-energy component scores
identically with and without the rescaling step. -/
theorem c3_amended_no_rescale_without_conversion_note_witness :
    (("sugars".toList) ≠ ("energy_calories".toList)
      ∨ ∀ c : Component, lookupKey (componentsFor unparseableCriteria true) ("sugars".toList) = some c →
          c.conversion_note = false)
    ∧ getPointsForComponent unparseableCriteria ("sugars".toList) 2 true =
        getPointsNoRescale unparseableCriteria ("sugars".toList) 2 true :=
  ⟨Or.inl (by decide),
   c3_amended_no_rescale_without_conversion_note unparseableCriteria ("sugars".toList) 2 true
     (Or.inl (by decide))⟩

/-- C8: toggling contains_sweeteners from false to true raises the raw
score by exactly 2 for every table, record and cheese flag, and the only
change to the log is one extra annotated sweetener row inserted between
the negative and positive blocks. -/
theorem c8_sweetener_penalty_additivity (criteria : Criteria) (data : List (Str × ℚ))
    (ch : Bool) :
    rawScoreOf criteria data ch true = rawScoreOf criteria data ch false + 2
    ∧ ∃ pre post,
        (calcCore criteria data ch false).log = pre ++ post
        ∧ (calcCore criteria data ch true).log = pre ++ sweetenerEntry :: post
        ∧ sweetenerEntry.points = 2
        ∧ sweetenerEntry.is_negative = true
        ∧ sweetenerEntry.note ≠ none := by
  constructor
  · simp only [rawScoreOf, calcCore_neg, calcCore_pos]
    simp
    ring
  · refine ⟨optNegLog criteria ("energy_calories".toList) (lookupKey data ("energy_kcal".toList)) ++
      (optNegLog criteria ("sugars".toList) (lookupKey data ("sugars_g".toList)) ++
      (optNegLog criteria ("saturated_fatty_acids".toList) (lookupKey data ("saturated_fat_g".toList)) ++
      optNegLog criteria ("salt_sodium".toList) (lookupKey data ("salt_g".toList)))),
      optPosLog criteria ch ("fiber".toList) (lookupKey data ("fiber_g".toList)) ++
      (optPosLog criteria ch ("protein".toList) (lookupKey data ("protein_g".toList)) ++
      optPosLog criteria ch ("fruits_vegetables_legumes_nuts".toList)
        (lookupKey data ("fruits_veg_nuts_percent".toList))),
      ?_, ?_, rfl, rfl, by decide⟩
    · simp [calcCore_log, List.append_assoc]
    · simp [calcCore_log, List.append_assoc]

/-- The key-to-component correspondence of the seven scored nutrient
keys, read off the pairs lists of calculate_score. -/
def keyToComponent : List (Str × Str) :=
  [(("energy_kcal".toList), ("energy_calories".toList)),
   (("sugars_g".toList), ("sugars".toList)),
   (("saturated_fat_g".toList), ("saturated_fatty_acids".toList)),
   (("salt_g".toList), ("salt_sodium".toList)),
   (("fiber_g".toList), ("fiber".toList)),
   (("protein_g".toList), ("protein".toList)),
   (("fruits_veg_nuts_percent".toList), ("fruits_vegetables_legumes_nuts".toList))]

/-- The component name whose ComponentContribution a nutrient key
produces, none for keys the engine never reads. -/
def keyComponent (k : Str) : Option Str := lookupKey keyToComponent k

/-- Removal of one nutrient key from a record. -/
def eraseKeyData (data : List (Str × ℚ)) (k : Str) : List (Str × ℚ) :=
  data.filter (fun p => decide (p.1 ≠ k))

/-- The log rows that survive when the contributions of one component
(if any) are removed. -/
def dropPred (c0 : Option Str) (e : LogEntry) : Bool :=
  decide (c0 ≠ some e.component)

theorem lookup_eraseKeyData (data : List (Str × ℚ)) (k key : Str) :
    lookupKey (eraseKeyData data k) key = if key = k then none else lookupKey data key := by
  induction data with
  | nil => simp [eraseKeyData, lookupKey]
  | cons p rest ih =>
    by_cases hpk : p.1 = k
    · have hkept : eraseKeyData (p :: rest) k = eraseKeyData rest k := by
        simp [eraseKeyData, List.filter_cons, hpk]
      rw [hkept, ih]
      by_cases hkk : key = k
      · simp [hkk]
      · have hpkey : ¬ p.1 = key := by
          rw [hpk]; exact fun h => hkk h.symm
        simp [hkk, lookupKey, hpkey]
    · have hkept : eraseKeyData (p :: rest) k = p :: eraseKeyData rest k := by
        simp [eraseKeyData, List.filter_cons, hpk]
      rw [hkept]
      by_cases hpkey : p.1 = key
      · have hkk : ¬ key = k := by
          rw [← hpkey]; exact hpk
        simp [lookupKey, hpkey, hkk]
      · simp only [lookupKey, if_neg hpkey, ih]

theorem dropPred_keep (c0 : Option Str) (e : LogEntry) (h : c0 ≠ some e.component) :
    dropPred c0 e = true := by
  simp [dropPred, h]

theorem filter_optNegLog_ne (criteria : Criteria) (comp : Str) (v? : Option ℚ)
    (c0 : Option Str) (h : c0 ≠ some comp) :
    (optNegLog criteria comp v?).filter (dropPred c0) = optNegLog criteria comp v? := by
  cases v? <;> simp [optNegLog, dropPred, h]

theorem filter_optNegLog_self (criteria : Criteria) (comp : Str) (v? : Option ℚ) :
    (optNegLog criteria comp v?).filter (dropPred (some comp)) = [] := by
  cases v? <;> simp [optNegLog, dropPred]

theorem filter_optPosLog_ne (criteria : Criteria) (ch : Bool) (comp : Str) (v? : Option ℚ)
    (c0 : Option Str) (h : c0 ≠ some comp) :
    (optPosLog criteria ch comp v?).filter (dropPred c0) = optPosLog criteria ch comp v? := by
  cases v? with
  | none => simp [optPosLog]
  | some v =>
    simp only [optPosLog]
    split <;> simp [dropPred, h]

theorem filter_optPosLog_self (criteria : Criteria) (ch : Bool) (comp : Str) (v? : Option ℚ) :
    (optPosLog criteria ch comp v?).filter (dropPred (some comp)) = [] := by
  cases v? with
  | none => simp [optPosLog]
  | some v =>
    simp only [optPosLog]
    split <;> simp [dropPred]

theorem filter_sweet (c0 : Option Str) (sw : Bool)
    (h : c0 ≠ some (("non_nutritive_sweeteners".toList))) :
    (if sw = true then [sweetenerEntry] else []).filter (dropPred c0) =
      (if sw = true then [sweetenerEntry] else []) := by
  have hd : dropPred c0 sweetenerEntry = true := dropPred_keep c0 sweetenerEntry h
  cases sw <;> simp [hd]

theorem acc_ext {a b : Acc} (hn : a.neg = b.neg) (hp : a.pos = b.pos) (hl : a.log = b.log) :
    a = b := by
  cases a; cases b
  simp_all

theorem optNegLog_none (criteria : Criteria) (comp : Str) :
    optNegLog criteria comp none = [] := rfl

theorem optPosLog_none (criteria : Criteria) (ch : Bool) (comp : Str) :
    optPosLog criteria ch comp none = [] := rfl

theorem filter_dropPred_none (l : List LogEntry) : l.filter (dropPred none) = l := by
  refine List.filter_eq_self.mpr (fun e _ => ?_)
  simp [dropPred]

/-- C7: removing a nutrient key from the record removes exactly that
key's ComponentContribution from the calculation log (every other row,
hence every other component's points, is unchanged), and removing a key
the engine never reads leaves the whole evaluation unchanged — an
absent key is skipped, never scored as zero. -/
theorem c7_missing_key_skip (criteria : Criteria) (data : List (Str × ℚ)) (ch sw : Bool)
    (k : Str) :
    ((calcCore criteria (eraseKeyData data k) ch sw).log =
      ((calcCore criteria data ch sw).log).filter (dropPred (keyComponent k)))
    ∧ (keyComponent k = none →
        calcCore criteria (eraseKeyData data k) ch sw = calcCore criteria data ch sw) := by
  by_cases h1 : k = ("energy_kcal".toList)
  · subst h1
    have hkc : keyComponent ("energy_kcal".toList) = some ("energy_calories".toList) := by decide
    rw [hkc]
    refine ⟨?_, fun habs => absurd habs (by decide)⟩
    rw [calcCore_log, calcCore_log]
    simp [lookup_eraseKeyData, List.filter_append, filter_optNegLog_ne, filter_optNegLog_self,
      filter_optPosLog_ne, filter_optPosLog_self, filter_sweet, optNegLog_none, optPosLog_none]
  by_cases h2 : k = ("sugars_g".toList)
  · subst h2
    have hkc : keyComponent ("sugars_g".toList) = some ("sugars".toList) := by decide
    rw [hkc]
    refine ⟨?_, fun habs => absurd habs (by decide)⟩
    rw [calcCore_log, calcCore_log]
    simp [lookup_eraseKeyData, List.filter_append, filter_optNegLog_ne, filter_optNegLog_self,
      filter_optPosLog_ne, filter_optPosLog_self, filter_sweet, optNegLog_none, optPosLog_none]
  by_cases h3 : k = ("saturated_fat_g".toList)
  · subst h3
    have hkc : keyComponent ("saturated_fat_g".toList) =
        some ("saturated_fatty_acids".toList) := by decide
    rw [hkc]
    refine ⟨?_, fun habs => absurd habs (by decide)⟩
    rw [calcCore_log, calcCore_log]
    simp [lookup_eraseKeyData, List.filter_append, filter_optNegLog_ne, filter_optNegLog_self,
      filter_optPosLog_ne, filter_optPosLog_self, filter_sweet, optNegLog_none, optPosLog_none]
  by_cases h4 : k = ("salt_g".toList)
  · subst h4
    have hkc : keyComponent ("salt_g".toList) = some ("salt_sodium".toList) := by decide
    rw [hkc]
    refine ⟨?_, fun habs => absurd habs (by decide)⟩
    rw [calcCore_log, calcCore_log]
    simp [lookup_eraseKeyData, List.filter_append, filter_optNegLog_ne, filter_optNegLog_self,
      filter_optPosLog_ne, filter_optPosLog_self, filter_sweet, optNegLog_none, optPosLog_none]
  by_cases h5 : k = ("fiber_g".toList)
  · subst h5
    have hkc : keyComponent ("fiber_g".toList) = some ("fiber".toList) := by decide
    rw [hkc]
    refine ⟨?_, fun habs => absurd habs (by decide)⟩
    rw [calcCore_log, calcCore_log]
    simp [lookup_eraseKeyData, List.filter_append, filter_optNegLog_ne, filter_optNegLog_self,
      filter_optPosLog_ne, filter_optPosLog_self, filter_sweet, optNegLog_none, optPosLog_none]
  by_cases h6 : k = ("protein_g".toList)
  · subst h6
    have hkc : keyComponent ("protein_g".toList) = some ("protein".toList) := by decide
    rw [hkc]
    refine ⟨?_, fun habs => absurd habs (by decide)⟩
    rw [calcCore_log, calcCore_log]
    simp [lookup_eraseKeyData, List.filter_append, filter_optNegLog_ne, filter_optNegLog_self,
      filter_optPosLog_ne, filter_optPosLog_self, filter_sweet, optNegLog_none, optPosLog_none]
  by_cases h7 : k = ("fruits_veg_nuts_percent".toList)
  · subst h7
    have hkc : keyComponent ("fruits_veg_nuts_percent".toList) =
        some ("fruits_vegetables_legumes_nuts".toList) := by decide
    rw [hkc]
    refine ⟨?_, fun habs => absurd habs (by decide)⟩
    rw [calcCore_log, calcCore_log]
    simp [lookup_eraseKeyData, List.filter_append, filter_optNegLog_ne, filter_optNegLog_self,
      filter_optPosLog_ne, filter_optPosLog_self, filter_sweet, optNegLog_none, optPosLog_none]
  have hkc : keyComponent k = none := by
    simp only [keyComponent, keyToComponent, lookupKey, if_neg (Ne.symm h1),
      if_neg (Ne.symm h2), if_neg (Ne.symm h3), if_neg (Ne.symm h4), if_neg (Ne.symm h5),
      if_neg (Ne.symm h6), if_neg (Ne.symm h7)]
  have hlk : ∀ key : Str, key ≠ k →
      lookupKey (eraseKeyData data k) key = lookupKey data key := by
    intro key hke
    rw [lookup_eraseKeyData, if_neg hke]
  have hcc : calcCore criteria (eraseKeyData data k) ch sw = calcCore criteria data ch sw := by
    apply acc_ext
    · rw [calcCore_neg, calcCore_neg, hlk ("energy_kcal".toList) (Ne.symm h1),
        hlk ("sugars_g".toList) (Ne.symm h2), hlk ("saturated_fat_g".toList) (Ne.symm h3),
        hlk ("salt_g".toList) (Ne.symm h4)]
    · rw [calcCore_pos, calcCore_pos, hlk ("fiber_g".toList) (Ne.symm h5),
        hlk ("protein_g".toList) (Ne.symm h6),
        hlk ("fruits_veg_nuts_percent".toList) (Ne.symm h7)]
    · rw [calcCore_log, calcCore_log, hlk ("energy_kcal".toList) (Ne.symm h1),
        hlk ("sugars_g".toList) (Ne.symm h2), hlk ("saturated_fat_g".toList) (Ne.symm h3),
        hlk ("salt_g".toList) (Ne.symm h4), hlk ("fiber_g".toList) (Ne.symm h5),
        hlk ("protein_g".toList) (Ne.symm h6),
        hlk ("fruits_veg_nuts_percent".toList) (Ne.symm h7)]
  rw [hkc, hcc, filter_dropPred_none]
  exact ⟨rfl, fun _ => rfl⟩

/-- Witness for the C7 theorem at a key the engine never reads. -/
theorem c7_missing_key_skip_witness :
    keyComponent ("unrelated".toList) = none
    ∧ calcCore ⟨none, none, none⟩
        (eraseKeyData [(("sugars_g".toList), 2)] ("unrelated".toList)) false false =
      calcCore ⟨none, none, none⟩ [(("sugars_g".toList), 2)] false false :=
  ⟨by decide,
   (c7_missing_key_skip ⟨none, none, none⟩ [(("sugars_g".toList), 2)] false false
     ("unrelated".toList)).2 (by decide)⟩

theorem lookupCache_cons_none {p : CKey × Result} {rest : CacheState} {key : CKey}
    (h : lookupCache (p :: rest) key = none) :
    p.1 ≠ key ∧ lookupCache rest key = none := by
  obtain ⟨pk, pv⟩ := p
  by_cases hp : pk = key
  · rw [lookupCache, if_pos hp] at h
    exact Option.noConfusion h
  · rw [lookupCache, if_neg hp] at h
    exact ⟨hp, h⟩

theorem lookupCache_append (st : CacheState) (key : CKey) (r : Result)
    (h : lookupCache st key = none) :
    lookupCache (st ++ [(key, r)]) key = some r := by
  induction st with
  | nil => simp [lookupCache]
  | cons p rest ih =>
    obtain ⟨hp, hrest⟩ := lookupCache_cons_none h
    obtain ⟨pk, pv⟩ := p
    rw [List.cons_append, lookupCache, if_neg hp]
    exact ih hrest

/-- C9: a second calculate_score call with the same nutrition data and
flags, run on the state the first call produced, returns exactly the
first call's Result, leaves the cache unchanged, and takes the
cache-hit branch (the flag true) instead of re-running the scoring. -/
theorem c9_determinism_and_cache_hit (criteria : Criteria) (st : CacheState)
    (data : List (Str × ℚ)) (bev ch sw : Bool) (r1 : Result) (st1 : CacheState) (b1 : Bool)
    (h : calculateScore criteria st data bev ch sw = some (r1, st1, b1)) :
    calculateScore criteria st1 data bev ch sw = some (r1, st1, true) := by
  simp only [calculateScore] at h ⊢
  cases hl : lookupCache st (cacheKey data bev ch sw) with
  | some r =>
    simp only [hl, Option.some.injEq, Prod.mk.injEq] at h
    obtain ⟨hr, hst, hb⟩ := h
    subst hr; subst hst
    simp only [hl]
  | none =>
    simp only [hl] at h
    cases hg : assignGrade criteria bev
        ((calcCore criteria data ch sw).neg - (calcCore criteria data ch sw).pos) with
    | none =>
      simp only [hg] at h
      exact Option.noConfusion h
    | some g =>
      simp only [hg, Option.some.injEq, Prod.mk.injEq] at h
      obtain ⟨hr, hst, hb⟩ := h
      rw [hr] at hst
      have hmem : lookupCache st1 (cacheKey data bev ch sw) = some r1 := by
        rw [← hst]
        by_cases hlen : 128 < (st ++ [(cacheKey data bev ch sw, r1)]).length
        · rw [if_pos hlen]
          cases st with
          | nil => simp at hlen
          | cons p tl =>
            have h2 := lookupCache_cons_none hl
            simp only [List.cons_append, List.drop_succ_cons, List.drop_zero]
            exact lookupCache_append tl _ r1 h2.2
        · rw [if_neg hlen]
          exact lookupCache_append st _ r1 hl
      simp only [hmem]

/-- The Result and cache state of the C9 witness scenario. -/
def c9Result : Result :=
  ⟨0, 10, ("E".toList), [⟨("sugars".toList), some 1, 0, true, none⟩], false, false, false⟩

/-- The one-entry cache state after the first witness call. -/
def c9State : CacheState :=
  [((cacheKey [(("sugars_g".toList), 1)] false false false), c9Result)]

/-- Witness for C9: a concrete first call populates the cache and the
second call is served from it with identical content. -/
theorem c9_determinism_and_cache_hit_witness :
    calculateScore ⟨none, none, none⟩ [] [(("sugars_g".toList), 1)] false false false =
      some (c9Result, c9State, false)
    ∧ calculateScore ⟨none, none, none⟩ c9State [(("sugars_g".toList), 1)] false false false =
      some (c9Result, c9State, true) :=
  ⟨by decide,
   c9_determinism_and_cache_hit ⟨none, none, none⟩ [] [(("sugars_g".toList), 1)]
     false false false c9Result c9State false (by decide)⟩

/-- A table whose sugars thresholds are listed out of order: level 0 is
a lower bound and level 1 an upper bound. Nothing in the loader or the
engine rejects such a table. -/
def disorderedCriteria : Criteria :=
  ⟨some [(("sugars".toList),
          ⟨[(("0_points".toList), ("> 5 g".toList)),
            (("1_points".toList), ("≤ 3 g".toList))], 1, false⟩)],
   none, none⟩

/-- A table with the realistic kJ energy thresholds and the
conversion_note of the 2024 document. -/
def energyKjCriteria : Criteria :=
  ⟨some [(("energy_calories".toList),
          ⟨[(("0_points".toList), ("≤ 3350 kJ".toList)),
            (("1_points".toList), ("> 3350 kJ".toList))], 1, true⟩)],
   none, none⟩

/-- C2 counterexample: with a disordered threshold table, raising
sugars from 2 to 6 lowers raw_score from 1 to 0, so monotonicity fails
for some rule tables; and even with well-ordered thresholds the kcal-kJ
rescaling step makes energy points drop from 1 to 0 as the value rises
from 999 to 1000 (999 is rescaled to 4179.816 kJ, 1000 is not
rescaled). -/
theorem c2_monotonicity_counterexample :
    ((2 : ℚ) ≤ 6
    ∧ rawScoreOf disorderedCriteria [(("sugars_g".toList), 2)] false false = 1
    ∧ rawScoreOf disorderedCriteria [(("sugars_g".toList), 6)] false false = 0)
    ∧ ((999 : ℚ) ≤ 1000
    ∧ getPointsForComponent energyKjCriteria ("energy_calories".toList) 999 true = 1
    ∧ getPointsForComponent energyKjCriteria ("energy_calories".toList) 1000 true = 0) := by
  refine ⟨⟨by decide, by decide, by decide⟩, by decide, ?_, by decide⟩
  have hv : (999 : ℚ) * kcalToKj = mkRat 522477 125 := by
    norm_num [kcalToKj, Rat.mkRat_eq_div]
  simp only [getPointsForComponent, energyKjCriteria, componentsFor, lookupKey, hv]
  decide

/-- A component rule that is an ascending chain of pure upper bounds
(each level below max_points stores a parseable upper-bound expression
with nondecreasing bounds) and is not subject to the kcal-kJ rescaling;
under such a rule the level scan is monotone in the value. -/
def LeChain (name : Str) (c : Component) : Prop :=
  (¬(name = ("energy_calories".toList) ∧ c.conversion_note = true))
  ∧ ∃ x : ℕ → ℚ, Monotone x ∧ ∀ k : ℕ, k < c.max_points.toNat →
      ∃ s : Str,
        lookupKey c.thresholds ((Nat.repr k).toList ++ ("_points".toList)) = some s
        ∧ chContains s '≤' = true ∧ chContains s '>' = false
        ∧ parseThreshold s = some (Sum.inl (x k))

/-- A component either absent from the table or governed by an
ascending upper-bound chain. -/
def MonotoneRule (criteria : Criteria) (name : Str) (b : Bool) : Prop :=
  ∀ c : Component, lookupKey (componentsFor criteria b) name = some c → LeChain name c

theorem find?_first_le {p : ℕ → Bool} :
    ∀ L : List ℕ, L.Pairwise (· ≤ ·) → ∀ j ∈ L, p j = true →
      ∃ k, L.find? p = some k ∧ k ≤ j := by
  intro L
  induction L with
  | nil =>
    intro _ j hj
    exact absurd hj (List.not_mem_nil j)
  | cons a t ih =>
    intro hp j hj hpj
    rw [List.pairwise_cons] at hp
    by_cases hpa : p a = true
    · refine ⟨a, List.find?_cons_of_pos t hpa, ?_⟩
      rcases List.mem_cons.mp hj with rfl | hjt
      · exact le_rfl
      · exact hp.1 j hjt
    · have hja : j ≠ a := fun he => hpa (he ▸ hpj)
      have hjt : j ∈ t := (List.mem_cons.mp hj).resolve_left hja
      obtain ⟨k, hk, hkj⟩ := ih hp.2 j hjt hpj
      exact ⟨k, by rw [List.find?_cons_of_neg t hpa, hk], hkj⟩

theorem levelHit_le_iff (thresholds : List (Str × Str)) (w : ℚ) (k : ℕ) (s : Str) (bnd : ℚ)
    (hs : lookupKey thresholds ((Nat.repr k).toList ++ ("_points".toList)) = some s)
    (hle : chContains s '≤' = true) (hgt : chContains s '>' = false)
    (hp : parseThreshold s = some (Sum.inl bnd)) :
    levelHit thresholds w k = true ↔ w ≤ bnd := by
  simp only [levelHit, hs, hp, hle, hgt]
  by_cases hwb : w ≤ bnd <;> simp [hwb]

/-- Monotonicity of the per-component point lookup under an ascending
upper-bound chain: a larger value never receives a smaller point level
(for negative components this means never fewer penalty points). -/
theorem getPoints_mono (criteria : Criteria) (name : Str) (b : Bool)
    (hM : MonotoneRule criteria name b) (v v' : ℚ) (hvv : v ≤ v') :
    getPointsForComponent criteria name v b ≤ getPointsForComponent criteria name v' b := by
  cases hc : lookupKey (componentsFor criteria b) name with
  | none => simp only [getPointsForComponent, hc, le_refl]
  | some c =>
    obtain ⟨hconv, x, hx, hlev⟩ := hM c hc
    have hcond : ∀ w : ℚ,
        ¬(name = ("energy_calories".toList) ∧ c.conversion_note = true ∧ w < 1000) :=
      fun w hw => hconv ⟨hw.1, hw.2.1⟩
    simp only [getPointsForComponent, hc, if_neg (hcond v), if_neg (hcond v')]
    by_cases hmax : 0 ≤ c.max_points
    · simp only [if_pos hmax]
      have hpair : (List.range (c.max_points.toNat + 1)).Pairwise (· ≤ ·) :=
        (List.pairwise_lt_range (c.max_points.toNat + 1)).imp le_of_lt
      have hboundv : ∀ w : ℚ,
          (match (List.range (c.max_points.toNat + 1)).find? (levelHit c.thresholds w) with
           | some k => (k : Int)
           | none => c.max_points) ≤ c.max_points := by
        intro w
        cases hf : (List.range (c.max_points.toNat + 1)).find? (levelHit c.thresholds w) with
        | none => exact le_refl _
        | some k =>
          have hk := List.mem_range.mp (List.mem_of_find?_eq_some hf)
          dsimp only
          calc (k : Int) ≤ (c.max_points.toNat : Int) := by
                exact_mod_cast Nat.lt_succ_iff.mp hk
            _ = c.max_points := Int.toNat_of_nonneg hmax
      cases hfind' : (List.range (c.max_points.toNat + 1)).find? (levelHit c.thresholds v') with
      | none =>
        have := hboundv v
        simpa using this
      | some k' =>
        have hk'r := List.mem_range.mp (List.mem_of_find?_eq_some hfind')
        by_cases hk'm : k' < c.max_points.toNat
        · obtain ⟨s, hs, hle, hgt, hp⟩ := hlev k' hk'm
          have hv'x : v' ≤ x k' :=
            (levelHit_le_iff c.thresholds v' k' s (x k') hs hle hgt hp).mp
              (List.find?_some hfind')
          have hhitv : levelHit c.thresholds v k' = true :=
            (levelHit_le_iff c.thresholds v k' s (x k') hs hle hgt hp).mpr
              (le_trans hvv hv'x)
          obtain ⟨k, hk, hkk⟩ := find?_first_le (List.range (c.max_points.toNat + 1)) hpair k'
            (List.mem_range.mpr hk'r) hhitv
          simp only [hk]
          exact_mod_cast hkk
        · have hk'' : k' = c.max_points.toNat :=
            Nat.le_antisymm (Nat.lt_succ_iff.mp hk'r) (Nat.not_lt.mp hk'm)
          have := hboundv v
          dsimp only
          rw [hk'', Int.toNat_of_nonneg hmax]
          simpa using this
    · simp only [if_neg hmax, List.find?_nil, le_refl]

theorem lookupKey_cons_ne {α : Type} (a k : Str) (b : α) (rest : List (Str × α))
    (h : ¬ a = k) : lookupKey ((a, b) :: rest) k = lookupKey rest k := by
  rw [lookupKey, if_neg h]

theorem lookupKey_cons_self {α : Type} (a : Str) (b : α) (rest : List (Str × α)) :
    lookupKey ((a, b) :: rest) a = some b := by
  rw [lookupKey, if_pos rfl]

/-- C2 amended: for components whose rule is an ascending chain of pure
upper bounds and which are exempt from the kcal-kJ rescaling, increasing
a negative component's value never decreases raw_score, and increasing a
positive component's value never increases raw_score, all other inputs
held fixed. -/
theorem c2_amended_monotonicity (criteria : Criteria) (rest : List (Str × ℚ))
    (ch sw : Bool) (comp key : Str) (v v' : ℚ) (hvv : v ≤ v') :
    ((comp, key) ∈ negativePairs → MonotoneRule criteria comp true →
      rawScoreOf criteria ((key, v) :: rest) ch sw ≤
        rawScoreOf criteria ((key, v') :: rest) ch sw)
    ∧ ((comp, key) ∈ positivePairs ++
        [(("fruits_vegetables_legumes_nuts".toList), ("fruits_veg_nuts_percent".toList))] →
      MonotoneRule criteria comp false →
      rawScoreOf criteria ((key, v') :: rest) ch sw ≤
        rawScoreOf criteria ((key, v) :: rest) ch sw) := by
  constructor
  · intro hmem hM
    have hm := getPoints_mono criteria comp true hM v v' hvv
    simp only [negativePairs, List.mem_cons, List.not_mem_nil, or_false,
      Prod.mk.injEq] at hmem
    rcases hmem with ⟨hc', hk'⟩ | ⟨hc', hk'⟩ | ⟨hc', hk'⟩ | ⟨hc', hk'⟩ <;>
      subst hc' <;> subst hk' <;>
      simp [rawScoreOf, calcCore_neg, calcCore_pos, lookupKey_cons_self, lookupKey_cons_ne,
        optNegPts, optPosPts] <;>
      simpa using hm
  · intro hmem hM
    have hm := getPoints_mono criteria comp false hM v v' hvv
    simp only [positivePairs, List.mem_append, List.mem_cons, List.not_mem_nil, or_false,
      Prod.mk.injEq] at hmem
    rcases hmem with (⟨hc', hk'⟩ | ⟨hc', hk'⟩) | ⟨hc', hk'⟩
    · subst hc'; subst hk'
      simp at hm
      simp [rawScoreOf, calcCore_neg, calcCore_pos, lookupKey_cons_self, lookupKey_cons_ne,
        optNegPts, optPosPts]
      linarith [hm]
    · subst hc'; subst hk'
      cases ch with
      | false =>
        simp at hm
        simp [rawScoreOf, calcCore_neg, calcCore_pos, lookupKey_cons_self, lookupKey_cons_ne,
          optNegPts, optPosPts]
        linarith [hm]
      | true =>
        simp [rawScoreOf, calcCore_neg, calcCore_pos, lookupKey_cons_self, lookupKey_cons_ne,
          optNegPts, optPosPts]
    · subst hc'; subst hk'
      simp at hm
      simp [rawScoreOf, calcCore_neg, calcCore_pos, lookupKey_cons_self, lookupKey_cons_ne,
        optNegPts, optPosPts]
      linarith [hm]

/-- A table whose sugars rule is an ascending chain of two upper
bounds, satisfying the amended monotonicity hypothesis. -/
def monotoneCriteria : Criteria :=
  ⟨some [(("sugars".toList),
          ⟨[(("0_points".toList), ("≤ 4 g".toList)),
            (("1_points".toList), ("≤ 9 g".toList))], 2, false⟩)],
   none, none⟩

theorem monotoneCriteria_rule : MonotoneRule monotoneCriteria ("sugars".toList) true := by
  intro c hc
  have hfound : lookupKey (componentsFor monotoneCriteria true) ("sugars".toList) =
      some ⟨[(("0_points".toList), ("≤ 4 g".toList)),
             (("1_points".toList), ("≤ 9 g".toList))], 2, false⟩ := by decide
  rw [hfound] at hc
  have hc' := (Option.some.inj hc).symm
  subst hc'
  refine ⟨by decide, fun k => if k = 0 then 4 else 9, ?_, ?_⟩
  · apply monotone_nat_of_le_succ
    intro n
    rcases n with _ | n
    · decide
    · simp
  · intro k hk
    rcases k with _ | _ | k
    · exact ⟨("≤ 4 g".toList), by decide, by decide, by decide, by decide⟩
    · exact ⟨("≤ 9 g".toList), by decide, by decide, by decide, by decide⟩
    · have hk2 : k + 1 + 1 < 2 := by simpa using hk
      exact absurd hk2 (by omega)

/-- Witness for the C2 amended theorem: under the ascending-chain table
the raw score at sugars 1 is at most the raw score at sugars 20. -/
theorem c2_amended_monotonicity_witness :
    ((1 : ℚ) ≤ 20)
    ∧ ((("sugars".toList), ("sugars_g".toList)) ∈ negativePairs)
    ∧ rawScoreOf monotoneCriteria [(("sugars_g".toList), 1)] false false ≤
        rawScoreOf monotoneCriteria [(("sugars_g".toList), 20)] false false :=
  ⟨by decide, by decide,
   (c2_amended_monotonicity monotoneCriteria [] false false ("sugars".toList)
     ("sugars_g".toList) 1 20 (by decide)).1 (by decide) monotoneCriteria_rule⟩

end NutriScore
